import Mathlib

/-!
Shallow embedding of `include/exiv2/slice.hpp` (Exiv2 slice/view library)
and verification of its specification.

Modelling choices:
* A container store (`std::vector`-like) is a `List α`; its `at()` method is
  `containerAt` (checked access, throwing on out-of-bounds, like `vector::at`).
* A C-array pointer is `Option (Nat → α)`: `none` is the null pointer, and
  `some f` is a non-null pointer into an unbounded memory `f` — a bare pointer
  carries no size information, which the model reflects by having no bound.
* The three `throw` sites of the source are distinguished as the spec's error
  taxonomy: `invalidRange` (constructor / `calculateSubSliceBounds`),
  `indexOutOfRange` (`rangeCheck` and the container's own `at`), and
  `nullPointer` (`Slice<T*>` constructor).
* `size_t` values are embedded as `Nat`; where the source's comments assert
  absence of overflow, a separate machine-level variant with explicit
  `% 2^64` wrap-around is defined and related to the `Nat` version.
-/

namespace Exiv2

/-- The error taxonomy of the spec: distinguishes the three throw sites of
`slice.hpp` (`std::out_of_range` at construction and sub-slice bound
resolution, `std::out_of_range` at index validation, `std::invalid_argument`
for a null pointer). -/
inductive SliceError where
  | invalidRange
  | indexOutOfRange
  | nullPointer
deriving DecidableEq, Repr

/-- `Internal::SliceBase`: the half-open bounds `[begin_, end_)` of a slice,
relative to the underlying store (`slice.hpp` lines 49-117). -/
structure SliceBase where
  begin_ : Nat
  end_ : Nat
deriving DecidableEq, Repr

/-- The `SliceBase(size_t begin, size_t end)` constructor: throws
`std::out_of_range` ("Begin must be smaller than end") when `begin >= end`. -/
def SliceBase.make (b e : Nat) : Except SliceError SliceBase :=
  if b ≥ e then .error .invalidRange else .ok ⟨b, e⟩

/-- `SliceBase::size()`: `end_ - begin_`. -/
def SliceBase.size (s : SliceBase) : Nat := s.end_ - s.begin_

/-- `SliceBase::rangeCheck(index)`: throws `std::out_of_range`
("Index outside of the slice") when `index >= size()`. -/
def SliceBase.rangeCheck (s : SliceBase) (index : Nat) : Except SliceError Unit :=
  if index ≥ s.size then .error .indexOutOfRange else .ok ()

/-- `SliceBase::calculateSubSliceBounds(begin, end)`: rejects
`begin >= size() || end > size()`, translates both bounds by `begin_`, then
defensively re-checks the translated `end` against `end_`. -/
def SliceBase.calculateSubSliceBounds (s : SliceBase) (b e : Nat) :
    Except SliceError (Nat × Nat) :=
  if b ≥ s.size ∨ e > s.size then .error .invalidRange
  else
    let b' := b + s.begin_
    let e' := e + s.begin_
    if e' > s.end_ then .error .invalidRange
    else .ok (b', e')

/-- The modulus of `size_t` arithmetic on a 64-bit platform. -/
def SIZE_T_MOD : Nat := 2 ^ 64

/-- Machine-level variant of `calculateSubSliceBounds` in which the two
additions wrap around at `2^64`, exactly as `size_t` addition does. -/
def SliceBase.calculateSubSliceBoundsM (s : SliceBase) (b e : Nat) :
    Except SliceError (Nat × Nat) :=
  if b ≥ s.size ∨ e > s.size then .error .invalidRange
  else
    let b' := (b + s.begin_) % SIZE_T_MOD
    let e' := (e + s.begin_) % SIZE_T_MOD
    if e' > s.end_ then .error .invalidRange
    else .ok (b', e')

/-- The container's own checked access, `container::at(i)`: throws out of
range when `i >= cont.size()` (as `std::vector::at` does). -/
def containerAt {α : Type} (cont : List α) (i : Nat) : Except SliceError α :=
  if h : i < cont.length then .ok (cont.get ⟨i, h⟩) else .error .indexOutOfRange

/-- The container's checked write, `container::at(i) = v`: throws out of
range when `i >= cont.size()`, otherwise replaces element `i`. -/
def containerSetAt {α : Type} (cont : List α) (i : Nat) (v : α) :
    Except SliceError (List α) :=
  if i < cont.length then .ok (cont.set i v) else .error .indexOutOfRange

/-- `Slice<container>`: a view over a container store, holding the bounds and
the store (`slice.hpp` lines 165-325; the C++ holds the container by
reference, the model carries its value). -/
structure Slice (α : Type) where
  cont : List α
  base : SliceBase
deriving DecidableEq, Repr

/-- The `Slice(container& cont, size_t begin, size_t end)` constructor: the
`SliceBase` base constructor runs first (rejecting `begin >= end`), then
`end > cont.size()` is rejected. -/
def Slice.make {α : Type} (cont : List α) (b e : Nat) : Except SliceError (Slice α) :=
  match SliceBase.make b e with
  | .error err => .error err
  | .ok base =>
      if e > cont.length then .error .invalidRange
      else .ok ⟨cont, base⟩

/-- `Slice::size()`, inherited from `SliceBase`. -/
def Slice.size {α : Type} (s : Slice α) : Nat := s.base.size

/-- `Slice<container>::at(index)`: `rangeCheck(index)` then
`cont_.at(begin_ + index)` (embeds the C++ member `at`, whose name is a Lean
keyword). -/
def Slice.atIdx {α : Type} (s : Slice α) (index : Nat) : Except SliceError α := do
  s.base.rangeCheck index
  containerAt s.cont (s.base.begin_ + index)

/-- The mutable `Slice<container>::at(index)` used as the target of a write:
`rangeCheck(index)` then `cont_.at(begin_ + index) = v`; returns the store
after the write. -/
def Slice.setAtIdx {α : Type} (s : Slice α) (index : Nat) (v : α) :
    Except SliceError (List α) := do
  s.base.rangeCheck index
  containerSetAt s.cont (s.base.begin_ + index) v

/-- Observable-state form of a write through the view: the store after the
call, paired with the error if one was thrown. A thrown exception happens
before any element is written, so on error the store is returned unchanged. -/
def Slice.writeAt {α : Type} (s : Slice α) (index : Nat) (v : α) :
    List α × Option SliceError :=
  match s.setAtIdx index v with
  | .ok c => (c, none)
  | .error err => (s.cont, some err)

/-- `Slice<container>::subSlice(begin, end)`: resolves the absolute bounds via
`calculateSubSliceBounds`, then runs the full `Slice` constructor over the
same store. -/
def Slice.subSlice {α : Type} (s : Slice α) (b e : Nat) :
    Except SliceError (Slice α) := do
  let (b', e') ← s.base.calculateSubSliceBounds b e
  Slice.make s.cont b' e'

/-- `Slice<container>::begin()` and `cbegin()`: the container's begin iterator
advanced by `begin_`; an iterator into a `List` is its position. -/
def Slice.beginIter {α : Type} (s : Slice α) : Nat := s.base.begin_

/-- `Slice<container>::end()` and `cend()`: the container's begin iterator
advanced by `end_`. -/
def Slice.endIter {α : Type} (s : Slice α) : Nat := s.base.end_

/-- Walking a container from iterator position `i` up to iterator position
`j`, dereferencing at each step: visits the elements at positions
`i, i+1, ..., j-1` of the store. -/
def iterTraversal {α : Type} (cont : List α) (i j : Nat) : List α :=
  (cont.drop i).take (j - i)

/-- The sequence visited by iterating the view from its begin to its end
iterator. -/
def Slice.traverse {α : Type} (s : Slice α) : List α :=
  iterTraversal s.cont s.beginIter s.endIter

/-- `Slice<T*>`: a view over a C-array, holding the (non-null) pointer as the
memory it addresses (`slice.hpp` lines 335-452). -/
structure PtrSlice (α : Type) where
  ptr : Nat → α
  base : SliceBase

/-- The `Slice(T* ptr, size_t begin, size_t end)` constructor: the `SliceBase`
base constructor runs first (rejecting `begin >= end`), then a null pointer is
rejected with `std::invalid_argument`. No check of `end` against the real
allocation is possible. -/
def PtrSlice.make {α : Type} (ptr : Option (Nat → α)) (b e : Nat) :
    Except SliceError (PtrSlice α) :=
  match SliceBase.make b e with
  | .error err => .error err
  | .ok base =>
      match ptr with
      | none => .error .nullPointer
      | some f => .ok ⟨f, base⟩

/-- `Slice<T*>::size()`, inherited from `SliceBase`. -/
def PtrSlice.size {α : Type} (p : PtrSlice α) : Nat := p.base.size

/-- `Slice<T*>::at(index)`: `rangeCheck(index)` then `ptr_[begin_ + index]`
(unchecked pointer arithmetic after the range check). -/
def PtrSlice.atIdx {α : Type} (p : PtrSlice α) (index : Nat) : Except SliceError α := do
  p.base.rangeCheck index
  .ok (p.ptr (p.base.begin_ + index))

/-- `Slice<T*>::subSlice(begin, end)`: resolves the absolute bounds, then runs
the pointer-slice constructor over the same pointer. -/
def PtrSlice.subSlice {α : Type} (p : PtrSlice α) (b e : Nat) :
    Except SliceError (PtrSlice α) := do
  let (b', e') ← p.base.calculateSubSliceBounds b e
  PtrSlice.make (some p.ptr) b' e'

/-- The sequence visited by iterating a pointer slice from `ptr_ + begin_` to
`ptr_ + end_`. -/
def PtrSlice.traverse {α : Type} (p : PtrSlice α) : List α :=
  (List.range (p.base.end_ - p.base.begin_)).map (fun k => p.ptr (p.base.begin_ + k))

/-- `makeSlice(cont, begin, end)`: convenience wrapper around the constructor. -/
def makeSlice {α : Type} (cont : List α) (b e : Nat) : Except SliceError (Slice α) :=
  Slice.make cont b e

/-- The whole-container overload `makeSlice(cont)`: expands to
`Slice(cont, 0, cont.size())`. -/
def makeSliceWhole {α : Type} (cont : List α) : Except SliceError (Slice α) :=
  Slice.make cont 0 cont.length

/-- `makeSliceFrom(cont, begin)`: expands to `Slice(cont, begin, cont.size())`. -/
def makeSliceFrom {α : Type} (cont : List α) (b : Nat) : Except SliceError (Slice α) :=
  Slice.make cont b cont.length

/-- `makeSliceUntil(cont, end)`: expands to `Slice(cont, 0, end)`. -/
def makeSliceUntil {α : Type} (cont : List α) (e : Nat) : Except SliceError (Slice α) :=
  Slice.make cont 0 e

example : Slice.make ([0, 1, 2, 3, 4] : List Nat) 1 3 =
    .ok ⟨[0, 1, 2, 3, 4], ⟨1, 3⟩⟩ := rfl

example : (Slice.mk ([0, 1, 2, 3, 4] : List Nat) ⟨1, 3⟩).atIdx 0 = .ok 1 := rfl

example : (Slice.mk ([0, 1, 2, 3, 4] : List Nat) ⟨1, 3⟩).subSlice 0 1 =
    .ok ⟨[0, 1, 2, 3, 4], ⟨1, 2⟩⟩ := rfl

example : (Slice.mk ([0, 1, 2, 3, 4] : List Nat) ⟨1, 3⟩).subSlice 0 0 =
    .error .invalidRange := rfl

example : (Slice.mk ([0, 1, 2, 3, 4] : List Nat) ⟨3, 5⟩).traverse = [3, 4] := rfl

/-! ### Helper lemmas -/

/-- Successful container-slice construction forces `b < e ≤ cont.length` and
determines the resulting view. -/
theorem Slice.make_ok {α : Type} {cont : List α} {b e : Nat} {s : Slice α}
    (h : Slice.make cont b e = .ok s) :
    b < e ∧ e ≤ cont.length ∧ s = ⟨cont, ⟨b, e⟩⟩ := by
  unfold Slice.make SliceBase.make at h
  by_cases hbe : b ≥ e
  · simp [hbe] at h
  · simp only [hbe, if_false] at h
    by_cases hec : e > cont.length
    · simp [hec] at h
    · simp only [hec, if_false, Except.ok.injEq] at h
      exact ⟨by omega, by omega, h.symm⟩

/-- Conversely, `b < e ≤ cont.length` makes container-slice construction
succeed with exactly those bounds. -/
theorem Slice.make_ok_of {α : Type} {cont : List α} {b e : Nat}
    (hbe : b < e) (hec : e ≤ cont.length) :
    Slice.make cont b e = .ok ⟨cont, ⟨b, e⟩⟩ := by
  unfold Slice.make SliceBase.make
  simp only [Nat.not_le.mpr hbe, ge_iff_le, if_false]
  simp [Nat.not_lt.mpr hec]

/-- Successful pointer-slice construction from a non-null pointer forces
`b < e` and determines the resulting view. -/
theorem PtrSlice.mkSome_ok {α : Type} {f : Nat → α} {b e : Nat} {p : PtrSlice α}
    (h : PtrSlice.make (some f) b e = .ok p) :
    b < e ∧ p = ⟨f, ⟨b, e⟩⟩ := by
  unfold PtrSlice.make SliceBase.make at h
  by_cases hbe : b ≥ e
  · simp [hbe] at h
  · simp only [hbe, if_false, Except.ok.injEq] at h
    exact ⟨by omega, h.symm⟩

/-- In-range access on a container slice delegates to the container. -/
theorem Slice.atIdx_of_lt {α : Type} (s : Slice α) (i : Nat) (hi : i < s.size) :
    s.atIdx i = containerAt s.cont (s.base.begin_ + i) := by
  unfold Slice.atIdx SliceBase.rangeCheck
  simp only [Slice.size] at hi
  simp only [ge_iff_le, Nat.not_le.mpr hi, if_false]
  rfl

/-- Out-of-range access on a container slice fails at the range check. -/
theorem Slice.atIdx_of_ge {α : Type} (s : Slice α) (i : Nat) (hi : s.size ≤ i) :
    s.atIdx i = .error .indexOutOfRange := by
  unfold Slice.atIdx SliceBase.rangeCheck
  simp only [Slice.size] at hi
  simp only [ge_iff_le, hi, if_true]
  rfl

/-- In-range access on a pointer slice dereferences `ptr_ + begin_ + index`. -/
theorem PtrSlice.atIdx_lt_ok {α : Type} (p : PtrSlice α) (i : Nat) (hi : i < p.size) :
    p.atIdx i = .ok (p.ptr (p.base.begin_ + i)) := by
  unfold PtrSlice.atIdx SliceBase.rangeCheck
  simp only [PtrSlice.size] at hi
  simp only [ge_iff_le, Nat.not_le.mpr hi, if_false]
  rfl

/-- Out-of-range access on a pointer slice fails at the range check. -/
theorem PtrSlice.atIdx_ge_err {α : Type} (p : PtrSlice α) (i : Nat) (hi : p.size ≤ i) :
    p.atIdx i = .error .indexOutOfRange := by
  unfold PtrSlice.atIdx SliceBase.rangeCheck
  simp only [PtrSlice.size] at hi
  simp only [ge_iff_le, hi, if_true]
  rfl

/-- Unfolded form of `calculateSubSliceBounds`. -/
theorem SliceBase.calcSub_spec (s : SliceBase) (b e : Nat) :
    s.calculateSubSliceBounds b e =
      if b ≥ s.size ∨ e > s.size then .error .invalidRange
      else if e + s.begin_ > s.end_ then .error .invalidRange
      else .ok (b + s.begin_, e + s.begin_) := rfl

/-- When the relative bounds pass both checks, `calculateSubSliceBounds`
returns the translated absolute bounds. -/
theorem SliceBase.calcSub_ok (s : SliceBase) (b e : Nat)
    (hbe : s.begin_ ≤ s.end_) (h1 : b < s.size) (h2 : e ≤ s.size) :
    s.calculateSubSliceBounds b e = .ok (b + s.begin_, e + s.begin_) := by
  rw [SliceBase.calcSub_spec]
  have hsz : s.size = s.end_ - s.begin_ := rfl
  have hne : ¬(b ≥ s.size ∨ e > s.size) := by omega
  have h3 : ¬(e + s.begin_ > s.end_) := by omega
  simp only [hne, if_false, h3]

/-- A successful `subSlice` on a container slice forces the relative bounds to
pass every check and determines the resulting view: same store, bounds
translated by `begin_`. -/
theorem Slice.subSlice_ok {α : Type} {s t : Slice α} {a c : Nat}
    (h : s.subSlice a c = .ok t) :
    a < s.size ∧ c ≤ s.size ∧ a < c ∧ c + s.base.begin_ ≤ s.cont.length ∧
    t = ⟨s.cont, ⟨a + s.base.begin_, c + s.base.begin_⟩⟩ := by
  unfold Slice.subSlice at h
  rw [SliceBase.calcSub_spec] at h
  by_cases h1 : a ≥ s.base.size ∨ c > s.base.size
  · simp only [h1, if_true] at h
    change (Except.error SliceError.invalidRange : Except SliceError (Slice α)) =
      Except.ok t at h
    exact absurd h (by simp)
  · simp only [h1, if_false] at h
    by_cases h2 : c + s.base.begin_ > s.base.end_
    · simp only [h2, if_true] at h
      change (Except.error SliceError.invalidRange : Except SliceError (Slice α)) =
        Except.ok t at h
      exact absurd h (by simp)
    · simp only [h2, if_false] at h
      change Slice.make s.cont (a + s.base.begin_) (c + s.base.begin_) = .ok t at h
      have hmk := Slice.make_ok h
      push_neg at h1
      refine ⟨h1.1, h1.2, by omega, by omega, hmk.2.2⟩

/-- The store after a successful write through the view: element
`begin_ + index` replaced, everything else untouched. -/
theorem Slice.setAtIdx_of_lt {α : Type} (s : Slice α) (i : Nat) (v : α)
    (hi : i < s.size) (hc : s.base.begin_ + i < s.cont.length) :
    s.setAtIdx i v = .ok (s.cont.set (s.base.begin_ + i) v) := by
  unfold Slice.setAtIdx SliceBase.rangeCheck containerSetAt
  simp only [Slice.size] at hi
  simp only [ge_iff_le, Nat.not_le.mpr hi, if_false]
  show containerSetAt s.cont (s.base.begin_ + i) v = _
  unfold containerSetAt
  simp only [hc, if_true]

/-! ### Claim theorems -/

/-- Claim C1: for every container store and every constructed view with
absolute bounds `[b, e)`, and every `i < view.size()`, `view.at(i)` is the
store's checked access at absolute position `b + i` and returns the store's
element there; writing `v` through `view.at(i)` yields exactly the store with
element `b + i` replaced by `v`, every other position unchanged. -/
theorem C1_at_addresses_store {α : Type} (cont : List α) (b e i : Nat) (v : α)
    (s : Slice α) (hs : Slice.make cont b e = .ok s) (hi : i < s.size) :
    s.atIdx i = containerAt cont (b + i) ∧
    (∃ hlt : b + i < cont.length, s.atIdx i = .ok (cont.get ⟨b + i, hlt⟩)) ∧
    s.setAtIdx i v = .ok (cont.set (b + i) v) ∧
    (cont.set (b + i) v)[b + i]? = some v ∧
    (∀ j, j ≠ b + i → (cont.set (b + i) v)[j]? = cont[j]?) := by
  obtain ⟨hbe, hec, rfl⟩ := Slice.make_ok hs
  simp only [Slice.size, SliceBase.size] at hi
  have hlt : b + i < cont.length := by omega
  refine ⟨Slice.atIdx_of_lt _ i (by simp only [Slice.size, SliceBase.size]; omega),
    ⟨hlt, ?_⟩, ?_, List.getElem?_set_eq_of_lt v hlt,
    fun j hj => List.getElem?_set_ne (Ne.symm hj)⟩
  · rw [Slice.atIdx_of_lt _ i (by simp only [Slice.size, SliceBase.size]; omega)]
    show containerAt cont (b + i) = _
    unfold containerAt
    simp only [hlt, dif_pos]
  · exact Slice.setAtIdx_of_lt _ i v (by simp only [Slice.size, SliceBase.size]; omega) hlt

/-- Concrete instance of C1: store `[10,11,12,13,14]`, view `[1,3)`, write 99
at view index 0. -/
theorem C1_witness :
    (Slice.mk ([10, 11, 12, 13, 14] : List Nat) ⟨1, 3⟩).setAtIdx 0 99 =
      .ok [10, 99, 12, 13, 14] :=
  (C1_at_addresses_store [10, 11, 12, 13, 14] 1 3 0 99
    ⟨[10, 11, 12, 13, 14], ⟨1, 3⟩⟩ rfl (by decide)).2.2.1

/-- Claim C2: whenever `subSlice(a, c)` succeeds on a constructed view, the
sub-slice references the same store, its size is `c - a`, and for every
`k < c - a` its `at(k)` agrees with the parent view's `at(a + k)`. -/
theorem C2_subSlice_absolute_addressing {α : Type} (cont : List α) (b e a c k : Nat)
    (s t : Slice α) (hs : Slice.make cont b e = .ok s)
    (ht : s.subSlice a c = .ok t) (hk : k < c - a) :
    t.cont = s.cont ∧ t.size = c - a ∧ t.atIdx k = s.atIdx (a + k) := by
  obtain ⟨hbe, hec, rfl⟩ := Slice.make_ok hs
  obtain ⟨h1, h2, h3, h4, rfl⟩ := Slice.subSlice_ok ht
  simp only [Slice.size, SliceBase.size] at h1 h2 ⊢
  refine ⟨by trivial, by omega, ?_⟩
  rw [Slice.atIdx_of_lt _ k (by simp only [Slice.size, SliceBase.size]; omega),
    Slice.atIdx_of_lt _ (a + k) (by simp only [Slice.size, SliceBase.size]; omega)]
  show containerAt cont (a + b + k) = containerAt cont (b + (a + k))
  congr 1
  omega

/-- Concrete instance of C2: view `[1,3)` over `[0,1,2,3,4]`, sub-slice
`(0, 1)`, element 0. -/
theorem C2_witness :
    (Slice.mk ([0, 1, 2, 3, 4] : List Nat) ⟨1, 2⟩).atIdx 0 =
      (Slice.mk ([0, 1, 2, 3, 4] : List Nat) ⟨1, 3⟩).atIdx (0 + 0) :=
  (C2_subSlice_absolute_addressing [0, 1, 2, 3, 4] 1 3 0 1 0
    ⟨[0, 1, 2, 3, 4], ⟨1, 3⟩⟩ ⟨[0, 1, 2, 3, 4], ⟨1, 2⟩⟩ rfl rfl (by decide)).2.2

/-- Claim C3: construction with `b ≥ e` fails with `InvalidRange` for every
store — container or pointer, the null pointer included, since the base
constructor runs before the null check; a container construction additionally
fails with `InvalidRange` when `e` exceeds the store's size; and for
`b < e ≤ store.size()` container construction succeeds with size `e - b`. -/
theorem C3_construction_bounds {α : Type} (cont : List α) (ptr : Option (Nat → α))
    (b e : Nat) :
    (b ≥ e → Slice.make cont b e = .error .invalidRange ∧
      PtrSlice.make ptr b e = .error .invalidRange) ∧
    (e > cont.length → Slice.make cont b e = .error .invalidRange) ∧
    (b < e → e ≤ cont.length →
      ∃ s : Slice α, Slice.make cont b e = .ok s ∧ s.size = e - b) := by
  refine ⟨fun h => ⟨?_, ?_⟩, fun h => ?_, fun h1 h2 => ?_⟩
  · unfold Slice.make SliceBase.make
    simp [h]
  · unfold PtrSlice.make SliceBase.make
    simp [h]
  · unfold Slice.make SliceBase.make
    by_cases hbe : b ≥ e
    · simp [hbe]
    · simp [hbe, h]
  · exact ⟨⟨cont, ⟨b, e⟩⟩, Slice.make_ok_of h1 h2, rfl⟩

/-- Concrete instance of C3: swapped bounds `(2, 1)` are rejected with
`InvalidRange` both for a container store and for a null pointer store. -/
theorem C3_witness :
    Slice.make ([0, 1, 2] : List Nat) 2 1 = .error .invalidRange ∧
    PtrSlice.make (none : Option (Nat → Nat)) 2 1 = .error .invalidRange :=
  (C3_construction_bounds [0, 1, 2] none 2 1).1 (by decide)

/-- Claim C4: on every constructed view, container- or pointer-backed,
`at(i)` fails with `IndexOutOfRange` exactly when `i ≥ size()`; below the
size, the range check passes and the access is delegated to the store. -/
theorem C4_at_fails_iff_index_ge_size {α : Type} (cont : List α) (f : Nat → α)
    (b e b2 e2 i : Nat) (s : Slice α) (p : PtrSlice α)
    (hs : Slice.make cont b e = .ok s) (hp : PtrSlice.make (some f) b2 e2 = .ok p) :
    (s.atIdx i = .error .indexOutOfRange ↔ i ≥ s.size) ∧
    (i < s.size → s.atIdx i = containerAt cont (b + i)) ∧
    (p.atIdx i = .error .indexOutOfRange ↔ i ≥ p.size) ∧
    (i < p.size → p.atIdx i = .ok (f (b2 + i))) := by
  obtain ⟨hbe, hec, rfl⟩ := Slice.make_ok hs
  obtain ⟨hbe2, rfl⟩ := PtrSlice.mkSome_ok hp
  refine ⟨⟨fun herr => ?_, fun h => Slice.atIdx_of_ge _ i h⟩,
    fun h => Slice.atIdx_of_lt _ i h,
    ⟨fun herr => ?_, fun h => PtrSlice.atIdx_ge_err _ i h⟩,
    fun h => PtrSlice.atIdx_lt_ok _ i h⟩
  · by_contra hge
    push_neg at hge
    rw [Slice.atIdx_of_lt _ i hge] at herr
    simp only [Slice.size, SliceBase.size] at hge
    unfold containerAt at herr
    have hlt : b + i < cont.length := by omega
    simp [hlt] at herr
  · by_contra hge
    push_neg at hge
    rw [PtrSlice.atIdx_lt_ok _ i hge] at herr
    exact absurd herr (by simp)

/-- Concrete instance of C4: index 3 on a 3-element view is rejected with
`IndexOutOfRange`. -/
theorem C4_witness :
    (Slice.mk ([5, 6, 7] : List Nat) ⟨0, 3⟩).atIdx 3 = .error .indexOutOfRange :=
  (C4_at_fails_iff_index_ge_size [5, 6, 7] (fun n => n) 0 3 2 4 3
    ⟨[5, 6, 7], ⟨0, 3⟩⟩ ⟨fun n => n, ⟨2, 4⟩⟩ rfl rfl).1.mpr (by decide)

/-- Claim C5: on a constructed view, `subSlice(a, c)` with `a < c` and
`c = size()` succeeds; `subSlice(a, 0)` fails with `InvalidRange` for every
`a`; and `subSlice(a, c)` with `a ≥ size()` fails with `InvalidRange`. -/
theorem C5_subSlice_edges {α : Type} (cont : List α) (b e a c : Nat) (s : Slice α)
    (hs : Slice.make cont b e = .ok s) :
    (a < c → c = s.size → s.subSlice a c = .ok ⟨cont, ⟨a + b, c + b⟩⟩) ∧
    (s.subSlice a 0 = .error .invalidRange) ∧
    (a ≥ s.size → s.subSlice a c = .error .invalidRange) := by
  obtain ⟨hbe, hec, rfl⟩ := Slice.make_ok hs
  refine ⟨fun hac hcs => ?_, ?_, fun ha => ?_⟩
  · have hcs' : c = e - b := hcs
    unfold Slice.subSlice
    rw [SliceBase.calcSub_spec]
    simp only [SliceBase.size]
    rw [if_neg (show ¬(a ≥ e - b ∨ c > e - b) by omega),
      if_neg (show ¬(c + b > e) by omega)]
    change Slice.make cont (a + b) (c + b) = _
    exact Slice.make_ok_of (by omega) (by omega)
  · unfold Slice.subSlice
    rw [SliceBase.calcSub_spec]
    simp only [SliceBase.size]
    by_cases ha : a ≥ e - b
    · rw [if_pos (Or.inl ha)]
      rfl
    · rw [if_neg (show ¬(a ≥ e - b ∨ 0 > e - b) by omega),
        if_neg (show ¬(0 + b > e) by omega)]
      change Slice.make cont (a + b) (0 + b) = _
      unfold Slice.make SliceBase.make
      simp [show a + b ≥ 0 + b by omega]
  · have ha' : a ≥ e - b := ha
    unfold Slice.subSlice
    rw [SliceBase.calcSub_spec]
    simp only [SliceBase.size]
    rw [if_pos (Or.inl ha')]
    rfl

/-- Concrete instance of C5: `subSlice(0, 0)` on the view `[1,3)` over a
5-element store is rejected with `InvalidRange`. -/
theorem C5_witness :
    (Slice.mk ([0, 1, 2, 3, 4] : List Nat) ⟨1, 3⟩).subSlice 0 0 =
      .error .invalidRange :=
  (C5_subSlice_edges [0, 1, 2, 3, 4] 1 3 0 2 ⟨[0, 1, 2, 3, 4], ⟨1, 3⟩⟩ rfl).2.1

/-- Claim C6: iterating a constructed view, container- or pointer-backed,
from its begin iterator to its end iterator visits exactly `size()` elements
in store order, and the k-th element visited is `at(k)`. -/
theorem C6_iteration_matches_walk {α : Type} (cont : List α) (f : Nat → α)
    (b e b2 e2 : Nat) (s : Slice α) (p : PtrSlice α)
    (hs : Slice.make cont b e = .ok s) (hp : PtrSlice.make (some f) b2 e2 = .ok p) :
    s.traverse.length = s.size ∧
    (∀ k, k < s.size → s.traverse[k]? = (s.atIdx k).toOption) ∧
    p.traverse.length = p.size ∧
    (∀ k, k < p.size → p.traverse[k]? = (p.atIdx k).toOption) := by
  obtain ⟨hbe, hec, rfl⟩ := Slice.make_ok hs
  obtain ⟨hbe2, rfl⟩ := PtrSlice.mkSome_ok hp
  refine ⟨?_, fun k hk => ?_, ?_, fun k hk => ?_⟩
  · show ((cont.drop b).take (e - b)).length = e - b
    rw [List.length_take, List.length_drop]
    omega
  · have hk' : k < e - b := hk
    show ((cont.drop b).take (e - b))[k]? = _
    rw [List.getElem?_take, if_pos hk', List.getElem?_drop]
    rw [Slice.atIdx_of_lt _ k hk]
    show cont[b + k]? = (containerAt cont (b + k)).toOption
    have hlen : b + k < cont.length := by omega
    unfold containerAt
    simp only [hlen, dif_pos]
    rw [List.getElem?_eq_getElem hlen]
    rfl
  · show ((List.range (e2 - b2)).map fun j => f (b2 + j)).length = e2 - b2
    simp
  · have hk' : k < e2 - b2 := hk
    show ((List.range (e2 - b2)).map fun j => f (b2 + j))[k]? = _
    rw [PtrSlice.atIdx_lt_ok _ k hk]
    simp [List.getElem?_range hk', Except.toOption]

/-- Concrete instance of C6: the view `[3,5)` over `[0,1,2,3,4]` visits 2
elements, and the element visited at iteration step 1 equals `at(1)`. -/
theorem C6_witness :
    (Slice.mk ([0, 1, 2, 3, 4] : List Nat) ⟨3, 5⟩).traverse.length =
      (Slice.mk ([0, 1, 2, 3, 4] : List Nat) ⟨3, 5⟩).size ∧
    (Slice.mk ([0, 1, 2, 3, 4] : List Nat) ⟨3, 5⟩).traverse[1]? =
      ((Slice.mk ([0, 1, 2, 3, 4] : List Nat) ⟨3, 5⟩).atIdx 1).toOption :=
  ⟨(C6_iteration_matches_walk [0, 1, 2, 3, 4] (fun n => n) 3 5 0 2
      ⟨[0, 1, 2, 3, 4], ⟨3, 5⟩⟩ ⟨fun n => n, ⟨0, 2⟩⟩ rfl rfl).1,
   (C6_iteration_matches_walk [0, 1, 2, 3, 4] (fun n => n) 3 5 0 2
      ⟨[0, 1, 2, 3, 4], ⟨3, 5⟩⟩ ⟨fun n => n, ⟨0, 2⟩⟩ rfl rfl).2.1 1 (by decide)⟩

/-- Claim C7: pointer-backed construction with a null pointer and `b < e`
fails with `NullPointer`; with any non-null pointer and `b < e` it succeeds
(no check against the real allocation exists — the model imposes no bound on
`e`), with size `e - b`. -/
theorem C7_ptr_construction {α : Type} (f : Nat → α) (b e : Nat) (h : b < e) :
    PtrSlice.make (none : Option (Nat → α)) b e = .error .nullPointer ∧
    PtrSlice.make (some f) b e = .ok ⟨f, ⟨b, e⟩⟩ ∧
    (PtrSlice.mk f ⟨b, e⟩).size = e - b := by
  refine ⟨?_, ?_, rfl⟩
  · unfold PtrSlice.make SliceBase.make
    simp only [ge_iff_le, Nat.not_le.mpr h, if_false]
  · unfold PtrSlice.make SliceBase.make
    simp only [ge_iff_le, Nat.not_le.mpr h, if_false]

/-- Concrete instance of C7: a null pointer with bounds `(2, 5)` is rejected
with `NullPointer`. -/
theorem C7_witness :
    PtrSlice.make (none : Option (Nat → Nat)) 2 5 = .error .nullPointer :=
  (C7_ptr_construction (fun n => n) 2 5 (by decide)).1

/-- Claim C8: every constructed view satisfies `begin_ < end_` (and, for a
container view, `end_ ≤ store.size()`); a view produced by a successful
`subSlice` satisfies the same invariant over the same store; and a failed
write through the view leaves the store exactly as it was. -/
theorem C8_bounds_invariant {α : Type} (cont : List α) (b e a c i : Nat) (v : α)
    (s t : Slice α) (hs : Slice.make cont b e = .ok s) :
    s.base.begin_ < s.base.end_ ∧ s.base.end_ ≤ s.cont.length ∧ s.cont = cont ∧
    (s.subSlice a c = .ok t →
      t.base.begin_ < t.base.end_ ∧ t.base.end_ ≤ t.cont.length ∧ t.cont = cont) ∧
    ((s.writeAt i v).2.isSome → (s.writeAt i v).1 = cont) := by
  obtain ⟨hbe, hec, rfl⟩ := Slice.make_ok hs
  refine ⟨hbe, hec, rfl, fun ht => ?_, fun herr => ?_⟩
  · obtain ⟨h1, h2, h3, h4, rfl⟩ := Slice.subSlice_ok ht
    exact ⟨show a + b < c + b by omega, show c + b ≤ cont.length from h4,
      show cont = cont from rfl⟩
  · unfold Slice.writeAt at herr ⊢
    cases hset : Slice.setAtIdx (Slice.mk cont ⟨b, e⟩) i v with
    | ok cnew =>
        rw [hset] at herr
        simp at herr
    | error err => rfl

/-- Concrete instance of C8: the constructed view `[1,3)` over `[0,1,2,3]`
has `begin_ < end_`, and a write at the out-of-range view index 5 fails
leaving the store unchanged. -/
theorem C8_witness :
    (Slice.mk ([0, 1, 2, 3] : List Nat) ⟨1, 3⟩).base.begin_ <
      (Slice.mk ([0, 1, 2, 3] : List Nat) ⟨1, 3⟩).base.end_ ∧
    ((Slice.mk ([0, 1, 2, 3] : List Nat) ⟨1, 3⟩).writeAt 5 9).1 = [0, 1, 2, 3] :=
  ⟨(C8_bounds_invariant [0, 1, 2, 3] 1 3 0 1 5 9 ⟨[0, 1, 2, 3], ⟨1, 3⟩⟩
      ⟨[0, 1, 2, 3], ⟨1, 2⟩⟩ rfl).1,
   (C8_bounds_invariant [0, 1, 2, 3] 1 3 0 1 5 9 ⟨[0, 1, 2, 3], ⟨1, 3⟩⟩
      ⟨[0, 1, 2, 3], ⟨1, 2⟩⟩ rfl).2.2.2.2 (by decide)⟩

/-- Claim C9: the whole-store factory on an empty container expands to bounds
`(0, 0)` and is rejected by the base constructor with `InvalidRange`. -/
theorem C9_makeSliceWhole_empty {α : Type} (cont : List α) (h : cont.length = 0) :
    makeSliceWhole cont = .error .invalidRange := by
  unfold makeSliceWhole Slice.make SliceBase.make
  rw [h]
  simp

/-- Concrete instance of C9: the empty store. -/
theorem C9_witness : makeSliceWhole ([] : List Nat) = .error .invalidRange :=
  C9_makeSliceWhole_empty [] rfl

/-- Claim C10: in `calculateSubSliceBounds`, once the first check passes on a
valid view whose bounds are `size_t` values, the two translated bounds do not
overflow `size_t` (wrap-around arithmetic agrees with unbounded arithmetic),
the defensive second check never fires, and the machine-arithmetic version of
the operation succeeds and agrees with the unbounded version. -/
theorem C10_calcSub_no_overflow (s : SliceBase) (b e : Nat)
    (hinv : s.begin_ < s.end_) (hw : s.end_ < SIZE_T_MOD)
    (h1 : b < s.size) (h2 : e ≤ s.size) :
    b + s.begin_ < SIZE_T_MOD ∧ e + s.begin_ < SIZE_T_MOD ∧
    ¬(e + s.begin_ > s.end_) ∧
    s.calculateSubSliceBoundsM b e = .ok (b + s.begin_, e + s.begin_) ∧
    s.calculateSubSliceBoundsM b e = s.calculateSubSliceBounds b e := by
  have hsz : s.size = s.end_ - s.begin_ := rfl
  have hb : b + s.begin_ < SIZE_T_MOD := by omega
  have he : e + s.begin_ ≤ s.end_ := by omega
  have hM : s.calculateSubSliceBoundsM b e = .ok (b + s.begin_, e + s.begin_) := by
    unfold SliceBase.calculateSubSliceBoundsM
    rw [if_neg (show ¬(b ≥ s.size ∨ e > s.size) by omega)]
    simp only [Nat.mod_eq_of_lt hb, Nat.mod_eq_of_lt (show e + s.begin_ < SIZE_T_MOD by omega)]
    rw [if_neg (by omega)]
  refine ⟨hb, by omega, by omega, hM, ?_⟩
  rw [hM, SliceBase.calcSub_ok s b e (by omega) h1 h2]

/-- Concrete instance of C10: the view `[1,3)`, relative sub-bounds `(0, 2)`:
the machine-arithmetic bound translation succeeds without wrap-around. -/
theorem C10_witness :
    (SliceBase.mk 1 3).calculateSubSliceBoundsM 0 2 = .ok (1, 3) :=
  (C10_calcSub_no_overflow ⟨1, 3⟩ 0 2 (by decide) (by decide)
    (by decide) (by decide)).2.2.2.1

end Exiv2
